import Mathlib

/-!
Waveshare Stepper Motor HAT (B) NEMA focuser: the motion controller.

A shallow embedding of `wmh_nema_focuser.cpp` / `wmh_nema_focuser.h`.

* The driver object is the record `Focuser`: the class members that the motion
  code reads or writes, the two INDI number values `FocusAbsPosN[0].value`
  (the position) and `FocusMaxPosN[0].value`, and the level last written to
  every GPIO line.
* Every pigpio call made by the driver is appended to a call log kept next to
  the driver state in `Sim`, so that "emits a pulse" and "writes a pin" are
  statements about that log.
* `uint32_t` values are natural numbers below `2 ^ 32`; every place where the
  C++ narrows to `uint32_t` is an explicit reduction modulo `2 ^ 32`.
* Timer scheduling (`SetTimer`), logging and the client notifications
  (`IDSetNumber`, `IDSetSwitch`) have no effect on the state modelled here.
-/

namespace WMHNEMAFocuser

/-! Constants -/

/-- The `MAX_STEPS` definition of the driver (maximum position). -/
def MAX_STEPS : Nat := 100000

/-- Number of values of a `uint32_t`. -/
def UINT32_SIZE : Nat := 4294967296

def DIR_PIN_X : Nat := 13
def STEP_PIN_X : Nat := 19
def ENABLE_PIN_X : Nat := 12
def DIR_PIN_Y : Nat := 24
def STEP_PIN_Y : Nat := 18
def ENABLE_PIN_Y : Nat := 4
def DIR_PIN_Z : Nat := 21
def STEP_PIN_Z : Nat := 26
def ENABLE_PIN_Z : Nat := 25

/-! Data model -/

/-- The INDI property state returned by the move requests. -/
inductive IPState where
  | IPS_IDLE
  | IPS_OK
  | IPS_BUSY
  | IPS_ALERT
  deriving DecidableEq, Repr

/-- The INDI focus direction of a relative move. -/
inductive FocusDirection where
  | FOCUS_INWARD
  | FOCUS_OUTWARD
  deriving DecidableEq, Repr

/-- One call into the pigpio library. -/
inductive GpioCall where
  | initialise
  | setMode (pin : Nat)
  | write (pin : Nat) (level : Nat)
  | delay (micros : Nat)
  | terminate
  deriving DecidableEq, Repr

/-- State of the driver object together with the output level of every GPIO line.
`FocusAbsPosN` and `FocusMaxPosN` stand for `FocusAbsPosN[0].value` and
`FocusMaxPosN[0].value`: C++ doubles that only ever hold whole numbers (they are
assigned from `MAX_STEPS`, `0` and the `uint32_t` counter of `TimerHit`), modelled
by that whole number. -/
@[ext]
structure Focuser where
  FocusAbsPosN : Nat
  FocusMaxPosN : Nat
  FocusAbsPosNP_s : IPState
  targetPosition : Nat
  isMoving : Bool
  currentDirPin : Nat
  currentStepPin : Nat
  currentEnablePin : Nat
  stepDelay : Nat
  pins : Nat → Nat

/-- The driver state and the log of all pigpio calls made so far (oldest first). -/
@[ext]
structure Sim where
  dev : Focuser
  log : List GpioCall

/-- Conversion of a whole-number double to `uint32_t`: the value itself when it
is in range. Out of range the model takes the reduction modulo `2 ^ 32`, the
two's-complement reading on which the test `(int32_t)newPosition < 0` of
`MoveRelFocuser` relies to see a negative difference. -/
def toUInt32 (x : Int) : Nat := (x % (UINT32_SIZE : Int)).toNat

/-- The cast `(int32_t)u` of a `uint32_t` value (two's complement). -/
def toInt32 (u : Nat) : Int :=
  if u < 2147483648 then (u : Int) else (u : Int) - (UINT32_SIZE : Int)

/-- Output latch after writing `level` to `pin`. -/
def setPin (f : Nat → Nat) (pin level : Nat) : Nat → Nat :=
  fun q => if q = pin then level else f q

/-- The pigpio call `gpioWrite(pin, level)`. -/
def gpioWrite (pin level : Nat) (m : Sim) : Sim :=
  { dev := { m.dev with pins := setPin m.dev.pins pin level },
    log := m.log ++ [GpioCall.write pin level] }

/-- The pigpio call `gpioDelay(micros)`. -/
def gpioDelay (micros : Nat) (m : Sim) : Sim :=
  { m with log := m.log ++ [GpioCall.delay micros] }

/-- The pigpio call `gpioSetMode(pin, PI_OUTPUT)`. -/
def gpioSetMode (pin : Nat) (m : Sim) : Sim :=
  { m with log := m.log ++ [GpioCall.setMode pin] }

/-! Driver operations -/

/-- Pin set-up of `initializeGPIO`, run once `gpioInitialise()` has succeeded. -/
def setupPins (m : Sim) : Sim :=
  let m := gpioSetMode DIR_PIN_X m
  let m := gpioSetMode STEP_PIN_X m
  let m := gpioSetMode ENABLE_PIN_X m
  let m := gpioWrite ENABLE_PIN_X 1 m
  let m := gpioSetMode DIR_PIN_Y m
  let m := gpioSetMode STEP_PIN_Y m
  let m := gpioSetMode ENABLE_PIN_Y m
  let m := gpioWrite ENABLE_PIN_Y 1 m
  let m := gpioSetMode DIR_PIN_Z m
  let m := gpioSetMode STEP_PIN_Z m
  let m := gpioSetMode ENABLE_PIN_Z m
  gpioWrite ENABLE_PIN_Z 1 m

/-- The method `initializeGPIO`; `rc` is what `gpioInitialise()` returns. On failure
the error message calls `gpioInitialise()` a second time. -/
def initializeGPIO (rc : Int) (m : Sim) : Bool × Sim :=
  let m := { m with log := m.log ++ [GpioCall.initialise] }
  if rc < 0 then
    (false, { m with log := m.log ++ [GpioCall.initialise] })
  else
    (true, setupPins m)

/-- The method `shutdownGPIO`. -/
def shutdownGPIO (m : Sim) : Sim :=
  let m := gpioWrite ENABLE_PIN_X 1 m
  let m := gpioWrite ENABLE_PIN_Y 1 m
  let m := gpioWrite ENABLE_PIN_Z 1 m
  { m with log := m.log ++ [GpioCall.terminate] }

/-- The method `setDirection`: HIGH = forward, LOW = reverse. -/
def setDirection (forward : Bool) (m : Sim) : Sim :=
  gpioWrite m.dev.currentDirPin (if forward then 1 else 0) m

/-- The method `enableMotor`: the enable pin is active low. -/
def enableMotor (enable : Bool) (m : Sim) : Sim :=
  gpioWrite m.dev.currentEnablePin (if enable then 0 else 1) m

/-- The method `stepMotor`: one step pulse on the active channel. -/
def stepMotor (m : Sim) : Bool × Sim :=
  let m := gpioWrite m.dev.currentStepPin 1 m
  let m := gpioDelay 2 m
  let m := gpioWrite m.dev.currentStepPin 0 m
  let m := gpioDelay m.dev.stepDelay m
  (true, m)

/-- The method `Connect`; `rc` is what `gpioInitialise()` returns. -/
def Connect (rc : Int) (m : Sim) : Bool × Sim :=
  let r := initializeGPIO rc m
  if !r.1 then (false, r.2) else (true, enableMotor false r.2)

/-- The method `Disconnect`. -/
def Disconnect (m : Sim) : Bool × Sim :=
  (true, shutdownGPIO (enableMotor false m))

/-- The method `MoveAbsFocuser`. -/
def MoveAbsFocuser (targetTicks : Nat) (m : Sim) : IPState × Sim :=
  if targetTicks = m.dev.FocusAbsPosN then
    (IPState.IPS_OK, m)
  else
    let m := { m with dev := { m.dev with targetPosition := targetTicks, isMoving := true } }
    let forward : Bool := decide (targetTicks > m.dev.FocusAbsPosN)
    let m := setDirection forward m
    let m := enableMotor true m
    (IPState.IPS_BUSY, m)

/-- The method `MoveRelFocuser`. `FocusAbsPosN[0].value - ticks` and
`FocusAbsPosN[0].value + ticks` are computed on doubles, hence exactly, and the
result is narrowed to the `uint32_t` local `newPosition`. -/
def MoveRelFocuser (dir : FocusDirection) (ticks : Nat) (m : Sim) : IPState × Sim :=
  let newPosition : Nat :=
    if dir = FocusDirection.FOCUS_INWARD then
      let newPosition := toUInt32 ((m.dev.FocusAbsPosN : Int) - (ticks : Int))
      if toInt32 newPosition < 0 then 0 else newPosition
    else
      let newPosition := toUInt32 ((m.dev.FocusAbsPosN : Int) + (ticks : Int))
      if newPosition > m.dev.FocusMaxPosN then toUInt32 (m.dev.FocusMaxPosN : Int)
      else newPosition
  MoveAbsFocuser newPosition m

/-- The method `AbortFocuser`. -/
def AbortFocuser (m : Sim) : Bool × Sim :=
  let m := { m with dev := { m.dev with isMoving := false } }
  (true, enableMotor false m)

/-- The `for` loop of `TimerHit`: `n` iterations are left, `currentPos` is the
local counter. It stops early when the counter meets `targetPosition`. -/
def stepLoop (forward : Bool) : Nat → Nat → Sim → Nat × Sim
  | 0, currentPos, m => (currentPos, m)
  | n + 1, currentPos, m =>
    if currentPos = m.dev.targetPosition then
      (currentPos, m)
    else
      let m := (stepMotor m).2
      let currentPos :=
        if forward then (currentPos + 1) % UINT32_SIZE
        else (currentPos + UINT32_SIZE - 1) % UINT32_SIZE
      stepLoop forward n currentPos m

/-- The method `TimerHit`. -/
def TimerHit (m : Sim) : Sim :=
  if !m.dev.isMoving then
    m
  else
    let currentPos := toUInt32 (m.dev.FocusAbsPosN : Int)
    if currentPos = m.dev.targetPosition then
      let m := { m with dev := { m.dev with isMoving := false } }
      let m := enableMotor false m
      { m with dev := { m.dev with FocusAbsPosNP_s := IPState.IPS_OK } }
    else
      let stepsToTake := 10
      let forward : Bool := decide (m.dev.targetPosition > currentPos)
      let r := stepLoop forward stepsToTake currentPos m
      { r.2 with dev := { r.2.dev with FocusAbsPosN := r.1 } }

/-- The `MOTOR_SELECT` branch of `ISNewSwitch`; `selectedMotor` is what
`IUFindOnSwitchIndex` returns. -/
def selectMotor (selectedMotor : Int) (m : Sim) : Sim :=
  if selectedMotor = 0 then
    { m with dev := { m.dev with currentDirPin := DIR_PIN_X, currentStepPin := STEP_PIN_X,
                                 currentEnablePin := ENABLE_PIN_X } }
  else if selectedMotor = 1 then
    { m with dev := { m.dev with currentDirPin := DIR_PIN_Y, currentStepPin := STEP_PIN_Y,
                                 currentEnablePin := ENABLE_PIN_Y } }
  else if selectedMotor = 2 then
    { m with dev := { m.dev with currentDirPin := DIR_PIN_Z, currentStepPin := STEP_PIN_Z,
                                 currentEnablePin := ENABLE_PIN_Z } }
  else m

/-- The driver object as constructed and after `initProperties`: position 0,
maximum `MAX_STEPS`, idle, channel X, step delay 1000; no line driven yet. -/
def fresh : Sim :=
  { dev := { FocusAbsPosN := 0, FocusMaxPosN := MAX_STEPS, FocusAbsPosNP_s := IPState.IPS_IDLE,
             targetPosition := 0, isMoving := false,
             currentDirPin := DIR_PIN_X, currentStepPin := STEP_PIN_X,
             currentEnablePin := ENABLE_PIN_X, stepDelay := 1000, pins := fun _ => 0 },
    log := [] }

/-- The state `m` after `n` timer ticks. -/
def ticks (n : Nat) (m : Sim) : Sim := TimerHit^[n] m

/-- The pigpio calls of one step pulse. -/
def pulse (stepPin stepDelay : Nat) : List GpioCall :=
  [GpioCall.write stepPin 1, GpioCall.delay 2, GpioCall.write stepPin 0, GpioCall.delay stepDelay]

/-- The pigpio calls of `j` consecutive step pulses. -/
def pulses (stepPin stepDelay : Nat) : Nat → List GpioCall
  | 0 => []
  | j + 1 => pulse stepPin stepDelay ++ pulses stepPin stepDelay j

/-- Number of step pulses (rising edges on `stepPin`) in a call log. -/
def pulseCount (stepPin : Nat) (l : List GpioCall) : Nat :=
  l.count (GpioCall.write stepPin 1)

/-- Distance between two positions, `|a - b|`. -/
def distance (a b : Nat) : Nat := if a ≤ b then b - a else a - b

/-- The position `j` steps away from `pos` in the direction of `tgt`. -/
def toward (pos tgt j : Nat) : Nat := if pos ≤ tgt then pos + j else pos - j

/-- The active pin triple is one of the three channels of the HAT. -/
def ValidChannel (d : Focuser) : Prop :=
  (d.currentDirPin = DIR_PIN_X ∧ d.currentStepPin = STEP_PIN_X ∧ d.currentEnablePin = ENABLE_PIN_X) ∨
  (d.currentDirPin = DIR_PIN_Y ∧ d.currentStepPin = STEP_PIN_Y ∧ d.currentEnablePin = ENABLE_PIN_Y) ∨
  (d.currentDirPin = DIR_PIN_Z ∧ d.currentStepPin = STEP_PIN_Z ∧ d.currentEnablePin = ENABLE_PIN_Z)

instance (d : Focuser) : Decidable (ValidChannel d) :=
  inferInstanceAs (Decidable (_ ∨ _ ∨ _))

/-- Closed form of the state after `j` step pulses that bring the position to
`pos`: the step line is back low, the log has grown by `j` pulses. -/
def moved (j pos : Nat) (m : Sim) : Sim :=
  { dev := { m.dev with
      FocusAbsPosN := pos,
      pins := if j = 0 then m.dev.pins else setPin m.dev.pins m.dev.currentStepPin 0 },
    log := m.log ++ pulses m.dev.currentStepPin m.dev.stepDelay j }

/-- Closed form of the state after the tick that finds the target reached: idle,
enable line high, property state `IPS_OK`. -/
def arrived (m : Sim) : Sim :=
  { dev := { m.dev with
      isMoving := false,
      FocusAbsPosNP_s := IPState.IPS_OK,
      pins := setPin m.dev.pins m.dev.currentEnablePin 1 },
    log := m.log ++ [GpioCall.write m.dev.currentEnablePin 1] }

/-- Closed form of the state after a move request that is not a no-op: target
stored, moving, direction line written, enable line low. -/
def started (targetTicks : Nat) (m : Sim) : Sim :=
  { dev := { m.dev with
      targetPosition := targetTicks,
      isMoving := true,
      pins := setPin (setPin m.dev.pins m.dev.currentDirPin
        (if targetTicks > m.dev.FocusAbsPosN then 1 else 0)) m.dev.currentEnablePin 0 },
    log := m.log ++ [GpioCall.write m.dev.currentDirPin
        (if targetTicks > m.dev.FocusAbsPosN then 1 else 0),
      GpioCall.write m.dev.currentEnablePin 0] }

/-- The clamping function of the specification: `x` limited to `[lo, hi]`. -/
def clamp (x lo hi : Nat) : Nat := max lo (min x hi)

/-- The driver after a successful `Connect` of the freshly constructed object. -/
def connected : Sim := (Connect 0 fresh).2

/-- A call made on the connected driver by the INDI framework. -/
inductive Request where
  | moveAbs (targetTicks : Nat)
  | moveRel (dir : FocusDirection) (ticks : Nat)
  | abort
  | timer
  | select (selectedMotor : Int)
  deriving DecidableEq, Repr

/-- Effect of one call on the state. -/
def Request.apply : Request → Sim → Sim
  | Request.moveAbs t, m => (MoveAbsFocuser t m).2
  | Request.moveRel dir n, m => (MoveRelFocuser dir n m).2
  | Request.abort, m => (AbortFocuser m).2
  | Request.timer, m => TimerHit m
  | Request.select i, m => selectMotor i m

/-- Effect of a sequence of calls, first call first. -/
def run : List Request → Sim → Sim
  | [], m => m
  | r :: rs, m => run rs (r.apply m)

/-- Whether every channel selection of the sequence is made while the controller is
idle. -/
def selectsWhileIdle : List Request → Sim → Bool
  | [], _ => true
  | Request.select i :: rs, m =>
    !m.dev.isMoving && selectsWhileIdle rs ((Request.select i).apply m)
  | r :: rs, m => selectsWhileIdle rs (r.apply m)

/-- The enable-line property: the active channel's enable line is low exactly when
the controller is moving, and the enable line of every other channel is high. -/
def EnableInvariant (d : Focuser) : Prop :=
  (d.pins d.currentEnablePin = 0 ↔ d.isMoving = true) ∧
  ∀ e ∈ [ENABLE_PIN_X, ENABLE_PIN_Y, ENABLE_PIN_Z], e ≠ d.currentEnablePin → d.pins e = 1

instance (d : Focuser) : Decidable (EnableInvariant d) :=
  inferInstanceAs (Decidable (_ ∧ _))

/-- The invariant behind `EnableInvariant`: a valid channel is active, its enable line
is low when moving and high when idle, and the other enable lines are high. -/
def EnableStrong (d : Focuser) : Prop :=
  ValidChannel d ∧
  d.pins d.currentEnablePin = (if d.isMoving then 0 else 1) ∧
  (ENABLE_PIN_X ≠ d.currentEnablePin → d.pins ENABLE_PIN_X = 1) ∧
  (ENABLE_PIN_Y ≠ d.currentEnablePin → d.pins ENABLE_PIN_Y = 1) ∧
  (ENABLE_PIN_Z ≠ d.currentEnablePin → d.pins ENABLE_PIN_Z = 1)

/-! Auxiliary lemmas -/

theorem toUInt32_of_lt {n : Nat} (h : n < UINT32_SIZE) : toUInt32 (n : Int) = n := by
  unfold toUInt32
  unfold UINT32_SIZE at *
  omega

theorem setPin_setPin (f : Nat → Nat) (p a b : Nat) :
    setPin (setPin f p a) p b = setPin f p b := by
  funext q
  simp only [setPin]
  split <;> rfl

theorem pulses_add (sp sd i j : Nat) :
    pulses sp sd (i + j) = pulses sp sd i ++ pulses sp sd j := by
  induction i with
  | zero => simp [pulses]
  | succ i ih => rw [Nat.succ_add]; simp [pulses, ih]

theorem stepMotor_eq (m : Sim) (pos : Nat) (h : m.dev.FocusAbsPosN = pos) :
    (stepMotor m).2 = moved 1 pos m := by
  subst h
  simp [stepMotor, moved, gpioWrite, gpioDelay, setPin_setPin, pulses, pulse]

theorem moved_zero (m : Sim) : moved 0 m.dev.FocusAbsPosN m = m := by
  simp [moved, pulses]

theorem moved_moved (i j a b : Nat) (m : Sim) :
    moved j b (moved i a m) = moved (i + j) b m := by
  simp only [moved, pulses_add, List.append_assoc]
  congr 2
  by_cases hi : i = 0 <;> by_cases hj : j = 0 <;> simp [hi, hj, setPin_setPin]

theorem stepLoop_forward (n : Nat) : ∀ (cp : Nat) (m : Sim) (pos : Nat),
    m.dev.FocusAbsPosN = pos → cp ≤ m.dev.targetPosition → m.dev.targetPosition < UINT32_SIZE →
    stepLoop true n cp m =
      (cp + min n (m.dev.targetPosition - cp), moved (min n (m.dev.targetPosition - cp)) pos m) := by
  induction n with
  | zero =>
    intro cp m pos hpos _ _
    subst hpos
    simp [stepLoop, moved_zero]
  | succ n ih =>
    intro cp m pos hpos hle hlt
    by_cases hc : cp = m.dev.targetPosition
    · subst hpos
      simp [stepLoop, hc, moved_zero]
    · have h1 : (cp + 1) % UINT32_SIZE = cp + 1 := Nat.mod_eq_of_lt (by omega)
      have hm : min (n + 1) (m.dev.targetPosition - cp)
          = 1 + min n (m.dev.targetPosition - (cp + 1)) := by omega
      simp only [stepLoop, hc, if_false, if_true, h1]
      rw [stepMotor_eq m pos hpos]
      rw [ih (cp + 1) (moved 1 pos m) pos rfl (by show cp + 1 ≤ m.dev.targetPosition; omega)
        (by show m.dev.targetPosition < UINT32_SIZE; exact hlt)]
      rw [moved_moved, hm]
      refine Prod.ext ?_ rfl
      show cp + 1 + min n (m.dev.targetPosition - (cp + 1)) = _
      omega

theorem stepLoop_backward (n : Nat) : ∀ (cp : Nat) (m : Sim) (pos : Nat),
    m.dev.FocusAbsPosN = pos → m.dev.targetPosition ≤ cp → cp < UINT32_SIZE →
    stepLoop false n cp m =
      (cp - min n (cp - m.dev.targetPosition), moved (min n (cp - m.dev.targetPosition)) pos m) := by
  induction n with
  | zero =>
    intro cp m pos hpos _ _
    subst hpos
    simp [stepLoop, moved_zero]
  | succ n ih =>
    intro cp m pos hpos hle hlt
    by_cases hc : cp = m.dev.targetPosition
    · subst hpos
      simp [stepLoop, hc, moved_zero]
    · have h1 : (cp + UINT32_SIZE - 1) % UINT32_SIZE = cp - 1 := by
        have : cp + UINT32_SIZE - 1 = (cp - 1) + UINT32_SIZE := by omega
        rw [this, Nat.add_mod_right]
        exact Nat.mod_eq_of_lt (by omega)
      have hm : min (n + 1) (cp - m.dev.targetPosition)
          = 1 + min n (cp - 1 - m.dev.targetPosition) := by omega
      simp only [stepLoop, hc, if_false, h1, Bool.false_eq_true]
      rw [stepMotor_eq m pos hpos]
      rw [ih (cp - 1) (moved 1 pos m) pos rfl (by show m.dev.targetPosition ≤ cp - 1; omega)
        (by omega)]
      rw [moved_moved, hm]
      refine Prod.ext ?_ rfl
      show cp - 1 - min n (cp - 1 - m.dev.targetPosition) = _
      omega

theorem TimerHit_idle (m : Sim) (h : m.dev.isMoving = false) : TimerHit m = m := by
  simp [TimerHit, h]

theorem ticks_idle (n : Nat) (m : Sim) (h : m.dev.isMoving = false) : ticks n m = m := by
  induction n with
  | zero => rfl
  | succ n ih =>
    show TimerHit^[n + 1] m = m
    rw [Function.iterate_succ_apply, TimerHit_idle m h]
    exact ih

theorem ticks_succ (n : Nat) (m : Sim) : ticks (n + 1) m = TimerHit (ticks n m) :=
  Function.iterate_succ_apply' TimerHit n m

theorem ticks_add (a b : Nat) (m : Sim) : ticks (a + b) m = ticks b (ticks a m) := by
  show TimerHit^[a + b] m = TimerHit^[b] (TimerHit^[a] m)
  rw [Nat.add_comm, Function.iterate_add_apply]

theorem TimerHit_arrived (m : Sim) (hm : m.dev.isMoving = true)
    (hlt : m.dev.FocusAbsPosN < UINT32_SIZE) (heq : m.dev.FocusAbsPosN = m.dev.targetPosition) :
    TimerHit m = arrived m := by
  have hc : toUInt32 (m.dev.FocusAbsPosN : Int) = m.dev.targetPosition := by
    rw [toUInt32_of_lt hlt]; exact heq
  simp only [TimerHit, hm, hc, Bool.not_true, Bool.false_eq_true, if_false, if_true]
  rfl

theorem TimerHit_step (m : Sim) (hm : m.dev.isMoving = true)
    (hlt : m.dev.FocusAbsPosN < UINT32_SIZE) (htl : m.dev.targetPosition < UINT32_SIZE)
    (hne : m.dev.FocusAbsPosN ≠ m.dev.targetPosition) :
    TimerHit m =
      moved (min 10 (distance m.dev.FocusAbsPosN m.dev.targetPosition))
        (toward m.dev.FocusAbsPosN m.dev.targetPosition
          (min 10 (distance m.dev.FocusAbsPosN m.dev.targetPosition))) m := by
  by_cases hle : m.dev.FocusAbsPosN ≤ m.dev.targetPosition
  · have hgt : m.dev.targetPosition > m.dev.FocusAbsPosN := by omega
    simp only [TimerHit, hm, toUInt32_of_lt hlt, hne, hgt, Bool.not_true, Bool.false_eq_true,
      if_false, decide_True,
      stepLoop_forward 10 m.dev.FocusAbsPosN m m.dev.FocusAbsPosN rfl hle htl,
      distance, toward, hle, if_true]
    simp [moved]
  · have hgt : ¬ m.dev.targetPosition > m.dev.FocusAbsPosN := by omega
    simp only [TimerHit, hm, toUInt32_of_lt hlt, hne, hgt, Bool.not_true, Bool.false_eq_true,
      if_false, decide_False,
      stepLoop_backward 10 m.dev.FocusAbsPosN m m.dev.FocusAbsPosN rfl (by omega) hlt,
      distance, toward, hle]
    simp [moved]

theorem ticks_moving (m : Sim) (hm : m.dev.isMoving = true)
    (hlt : m.dev.FocusAbsPosN < UINT32_SIZE) (htl : m.dev.targetPosition < UINT32_SIZE) :
    ∀ k, 10 * k ≤ distance m.dev.FocusAbsPosN m.dev.targetPosition + 9 →
      ticks k m =
        moved (min (10 * k) (distance m.dev.FocusAbsPosN m.dev.targetPosition))
          (toward m.dev.FocusAbsPosN m.dev.targetPosition
            (min (10 * k) (distance m.dev.FocusAbsPosN m.dev.targetPosition))) m := by
  intro k
  induction k with
  | zero =>
    intro _
    have h0 : toward m.dev.FocusAbsPosN m.dev.targetPosition 0 = m.dev.FocusAbsPosN := by
      unfold toward; split <;> rfl
    simp only [Nat.mul_zero, Nat.zero_min, h0, moved_zero]
    rfl
  | succ k ih =>
    intro hk
    rw [ticks_succ, ih (by omega)]
    have hd : 10 * k < distance m.dev.FocusAbsPosN m.dev.targetPosition := by omega
    rw [Nat.min_eq_left (Nat.le_of_lt hd)]
    have hp1 : toward m.dev.FocusAbsPosN m.dev.targetPosition (10 * k) < UINT32_SIZE := by
      unfold distance toward at *; split_ifs at * <;> omega
    have hp2 : toward m.dev.FocusAbsPosN m.dev.targetPosition (10 * k) ≠ m.dev.targetPosition := by
      unfold distance toward at *; split_ifs at * <;> omega
    rw [TimerHit_step (moved (10 * k) (toward m.dev.FocusAbsPosN m.dev.targetPosition (10 * k)) m)
      hm hp1 htl hp2]
    rw [moved_moved]
    show moved
      (10 * k + min 10 (distance (toward m.dev.FocusAbsPosN m.dev.targetPosition (10 * k))
        m.dev.targetPosition))
      (toward (toward m.dev.FocusAbsPosN m.dev.targetPosition (10 * k)) m.dev.targetPosition
        (min 10 (distance (toward m.dev.FocusAbsPosN m.dev.targetPosition (10 * k))
          m.dev.targetPosition))) m = _
    have e1 : distance (toward m.dev.FocusAbsPosN m.dev.targetPosition (10 * k)) m.dev.targetPosition
        = distance m.dev.FocusAbsPosN m.dev.targetPosition - 10 * k := by
      unfold distance toward at *; split_ifs at * <;> omega
    have e2 : 10 * k + min 10 (distance m.dev.FocusAbsPosN m.dev.targetPosition - 10 * k)
        = min (10 * (k + 1)) (distance m.dev.FocusAbsPosN m.dev.targetPosition) := by omega
    have e3 : toward (toward m.dev.FocusAbsPosN m.dev.targetPosition (10 * k)) m.dev.targetPosition
          (min 10 (distance m.dev.FocusAbsPosN m.dev.targetPosition - 10 * k))
        = toward m.dev.FocusAbsPosN m.dev.targetPosition
          (min (10 * (k + 1)) (distance m.dev.FocusAbsPosN m.dev.targetPosition)) := by
      unfold distance toward at *; split_ifs at * <;> omega
    rw [e1, e2, e3]

theorem MoveAbsFocuser_same (m : Sim) :
    MoveAbsFocuser m.dev.FocusAbsPosN m = (IPState.IPS_OK, m) := by
  simp [MoveAbsFocuser]

theorem MoveAbsFocuser_ne (t : Nat) (m : Sim) (h : t ≠ m.dev.FocusAbsPosN) :
    MoveAbsFocuser t m = (IPState.IPS_BUSY, started t m) := by
  by_cases hgt : t > m.dev.FocusAbsPosN <;>
    simp [MoveAbsFocuser, h, started, setDirection, enableMotor, gpioWrite, hgt]

theorem ticks_reach (m : Sim) (hm : m.dev.isMoving = true)
    (hlt : m.dev.FocusAbsPosN < UINT32_SIZE) (htl : m.dev.targetPosition < UINT32_SIZE) :
    ticks ((distance m.dev.FocusAbsPosN m.dev.targetPosition + 9) / 10) m =
      moved (distance m.dev.FocusAbsPosN m.dev.targetPosition) m.dev.targetPosition m := by
  rw [ticks_moving m hm hlt htl _ (by omega)]
  have e1 : min (10 * ((distance m.dev.FocusAbsPosN m.dev.targetPosition + 9) / 10))
      (distance m.dev.FocusAbsPosN m.dev.targetPosition)
      = distance m.dev.FocusAbsPosN m.dev.targetPosition := by omega
  have e2 : toward m.dev.FocusAbsPosN m.dev.targetPosition
      (distance m.dev.FocusAbsPosN m.dev.targetPosition) = m.dev.targetPosition := by
    unfold distance toward; split_ifs <;> omega
  rw [e1, e2]

theorem ticks_done (m : Sim) (hm : m.dev.isMoving = true)
    (hlt : m.dev.FocusAbsPosN < UINT32_SIZE) (htl : m.dev.targetPosition < UINT32_SIZE) (i : Nat) :
    ticks ((distance m.dev.FocusAbsPosN m.dev.targetPosition + 9) / 10 + 1 + i) m =
      arrived (moved (distance m.dev.FocusAbsPosN m.dev.targetPosition) m.dev.targetPosition m) := by
  rw [ticks_add, ticks_succ, ticks_reach m hm hlt htl,
    TimerHit_arrived (moved (distance m.dev.FocusAbsPosN m.dev.targetPosition) m.dev.targetPosition m)
      hm htl rfl]
  exact ticks_idle i _ rfl

/-- Every tick of a move in progress, in closed form: while steps remain the state
is `moved`, afterwards it is `arrived`. -/
theorem ticks_cases (m : Sim) (hm : m.dev.isMoving = true)
    (hlt : m.dev.FocusAbsPosN < UINT32_SIZE) (htl : m.dev.targetPosition < UINT32_SIZE) (k : Nat) :
    (∃ j, j ≤ distance m.dev.FocusAbsPosN m.dev.targetPosition ∧
      ticks k m = moved j (toward m.dev.FocusAbsPosN m.dev.targetPosition j) m) ∨
    ticks k m =
      arrived (moved (distance m.dev.FocusAbsPosN m.dev.targetPosition) m.dev.targetPosition m) := by
  by_cases hk : 10 * k ≤ distance m.dev.FocusAbsPosN m.dev.targetPosition + 9
  · left
    exact ⟨_, Nat.min_le_right _ _, ticks_moving m hm hlt htl k hk⟩
  · right
    have hk2 : k = (distance m.dev.FocusAbsPosN m.dev.targetPosition + 9) / 10 + 1 +
        (k - ((distance m.dev.FocusAbsPosN m.dev.targetPosition + 9) / 10 + 1)) := by omega
    rw [hk2]
    exact ticks_done m hm hlt htl _

theorem validChannel_distinct (d : Focuser) (h : ValidChannel d) :
    d.currentDirPin ≠ d.currentStepPin ∧ d.currentDirPin ≠ d.currentEnablePin ∧
      d.currentStepPin ≠ d.currentEnablePin := by
  rcases h with ⟨h1, h2, h3⟩ | ⟨h1, h2, h3⟩ | ⟨h1, h2, h3⟩ <;>
    simp [h1, h2, h3, DIR_PIN_X, STEP_PIN_X, ENABLE_PIN_X, DIR_PIN_Y, STEP_PIN_Y, ENABLE_PIN_Y,
      DIR_PIN_Z, STEP_PIN_Z, ENABLE_PIN_Z]

theorem pulseCount_pulses (sp sd j : Nat) : pulseCount sp (pulses sp sd j) = j := by
  induction j with
  | zero => simp [pulseCount, pulses]
  | succ j ih =>
    simp only [pulseCount] at ih
    simp [pulseCount, pulses, pulse, List.count_cons, ih]

theorem max_steps_lt {n : Nat} (h : n ≤ MAX_STEPS) : n < UINT32_SIZE := by
  unfold MAX_STEPS at h; unfold UINT32_SIZE; omega

/-- A move request that is not a no-op, run to completion: from the tick numbered
`ceil(|t - p| / 10) + 1` on the state is the arrived one. -/
theorem run_done (s : Sim) (t : Nat) (hp : s.dev.FocusAbsPosN < UINT32_SIZE)
    (ht : t < UINT32_SIZE) (hne : t ≠ s.dev.FocusAbsPosN) (i : Nat) :
    ticks ((distance s.dev.FocusAbsPosN t + 9) / 10 + 1 + i) (MoveAbsFocuser t s).2 =
      arrived (moved (distance s.dev.FocusAbsPosN t) t (started t s)) := by
  rw [MoveAbsFocuser_ne t s hne]
  exact ticks_done (started t s) rfl hp ht i

/-- Every tick after a move request that is not a no-op, in closed form. -/
theorem run_cases (s : Sim) (t : Nat) (hp : s.dev.FocusAbsPosN < UINT32_SIZE)
    (ht : t < UINT32_SIZE) (hne : t ≠ s.dev.FocusAbsPosN) (k : Nat) :
    (∃ j, j ≤ distance s.dev.FocusAbsPosN t ∧
      ticks k (MoveAbsFocuser t s).2 = moved j (toward s.dev.FocusAbsPosN t j) (started t s)) ∨
    ticks k (MoveAbsFocuser t s).2 =
      arrived (moved (distance s.dev.FocusAbsPosN t) t (started t s)) := by
  rw [MoveAbsFocuser_ne t s hne]
  exact ticks_cases (started t s) rfl hp ht k

/-- Claim C1. From an idle controller at a position within `[0, MAX_STEPS]`, a request
`MoveAbsFocuser t` with `t` within `[0, MAX_STEPS]` followed by timer ticks reaches, after
at most `ceil(|t - p| / 10) + 1` ticks, a state that is idle with the position equal to
`t`; every later tick leaves that state as it is. -/
theorem C1_move_reaches_target (s : Sim) (t : Nat)
    (hidle : s.dev.isMoving = false) (hp : s.dev.FocusAbsPosN ≤ MAX_STEPS) (ht : t ≤ MAX_STEPS) :
    ∃ n, n ≤ (distance s.dev.FocusAbsPosN t + 9) / 10 + 1 ∧
      (ticks n (MoveAbsFocuser t s).2).dev.isMoving = false ∧
      (ticks n (MoveAbsFocuser t s).2).dev.FocusAbsPosN = t ∧
      ∀ k, n ≤ k → ticks k (MoveAbsFocuser t s).2 = ticks n (MoveAbsFocuser t s).2 := by
  by_cases h : t = s.dev.FocusAbsPosN
  · subst h
    rw [MoveAbsFocuser_same]
    exact ⟨0, Nat.zero_le _, hidle, rfl, fun k _ => ticks_idle k s hidle⟩
  · have hd := run_done s t (max_steps_lt hp) (max_steps_lt ht) h
    have h0 := hd 0
    rw [Nat.add_zero] at h0
    refine ⟨(distance s.dev.FocusAbsPosN t + 9) / 10 + 1, Nat.le_refl _, ?_, ?_, ?_⟩
    · rw [h0]; rfl
    · rw [h0]; rfl
    · intro k hk
      have h1 := hd (k - ((distance s.dev.FocusAbsPosN t + 9) / 10 + 1))
      rw [Nat.add_sub_cancel' hk] at h1
      rw [h0, h1]

theorem C1_witness :
    fresh.dev.isMoving = false ∧ fresh.dev.FocusAbsPosN ≤ MAX_STEPS ∧ 500 ≤ MAX_STEPS ∧
    ∃ n, n ≤ (distance fresh.dev.FocusAbsPosN 500 + 9) / 10 + 1 ∧
      (ticks n (MoveAbsFocuser 500 fresh).2).dev.isMoving = false ∧
      (ticks n (MoveAbsFocuser 500 fresh).2).dev.FocusAbsPosN = 500 ∧
      ∀ k, n ≤ k → ticks k (MoveAbsFocuser 500 fresh).2 = ticks n (MoveAbsFocuser 500 fresh).2 :=
  ⟨rfl, by decide, by decide, C1_move_reaches_target fresh 500 rfl (by decide) (by decide)⟩

/-- Claim C2. On a valid channel at position `p`, a move to `t ≠ p` (both within
`[0, MAX_STEPS]`) requested from idle and run to completion ends idle at `t`; the pigpio
calls it makes are exactly: one write of the level `(t > p)` to the direction line, the
enable line driven low, `|t - p|` step pulses, the enable line driven high. So exactly
`|t - p|` pulses are emitted, the direction line holds the level `(t > p)` at every tick,
and the direction that any stepping tick computes agrees with it. -/
theorem C2_pulses_and_direction (s : Sim) (t : Nat)
    (_hidle : s.dev.isMoving = false) (hp : s.dev.FocusAbsPosN ≤ MAX_STEPS) (ht : t ≤ MAX_STEPS)
    (hne : t ≠ s.dev.FocusAbsPosN) (hch : ValidChannel s.dev) :
    (ticks ((distance s.dev.FocusAbsPosN t + 9) / 10 + 1) (MoveAbsFocuser t s).2).dev.isMoving
        = false ∧
    (ticks ((distance s.dev.FocusAbsPosN t + 9) / 10 + 1) (MoveAbsFocuser t s).2).dev.FocusAbsPosN
        = t ∧
    (ticks ((distance s.dev.FocusAbsPosN t + 9) / 10 + 1) (MoveAbsFocuser t s).2).log
        = s.log
          ++ [GpioCall.write s.dev.currentDirPin (if t > s.dev.FocusAbsPosN then 1 else 0),
              GpioCall.write s.dev.currentEnablePin 0]
          ++ pulses s.dev.currentStepPin s.dev.stepDelay (distance s.dev.FocusAbsPosN t)
          ++ [GpioCall.write s.dev.currentEnablePin 1] ∧
    pulseCount s.dev.currentStepPin
        ((ticks ((distance s.dev.FocusAbsPosN t + 9) / 10 + 1) (MoveAbsFocuser t s).2).log.drop
          s.log.length)
        = distance s.dev.FocusAbsPosN t ∧
    ∀ k,
      (ticks k (MoveAbsFocuser t s).2).dev.pins s.dev.currentDirPin
          = (if t > s.dev.FocusAbsPosN then 1 else 0) ∧
      ((ticks k (MoveAbsFocuser t s).2).dev.isMoving = true →
        toUInt32 ((ticks k (MoveAbsFocuser t s).2).dev.FocusAbsPosN : Int)
          ≠ (ticks k (MoveAbsFocuser t s).2).dev.targetPosition →
        decide ((ticks k (MoveAbsFocuser t s).2).dev.targetPosition
            > toUInt32 ((ticks k (MoveAbsFocuser t s).2).dev.FocusAbsPosN : Int))
          = decide (t > s.dev.FocusAbsPosN)) := by
  have hp2 := max_steps_lt hp
  have ht2 := max_steps_lt ht
  obtain ⟨hds, hde, hse⟩ := validChannel_distinct s.dev hch
  have h0 := run_done s t hp2 ht2 hne 0
  rw [Nat.add_zero] at h0
  have hlog : (arrived (moved (distance s.dev.FocusAbsPosN t) t (started t s))).log
      = s.log
          ++ [GpioCall.write s.dev.currentDirPin (if t > s.dev.FocusAbsPosN then 1 else 0),
              GpioCall.write s.dev.currentEnablePin 0]
          ++ pulses s.dev.currentStepPin s.dev.stepDelay (distance s.dev.FocusAbsPosN t)
          ++ [GpioCall.write s.dev.currentEnablePin 1] := by
    simp [arrived, moved, started]
  refine ⟨by rw [h0]; rfl, by rw [h0]; rfl, by rw [h0]; exact hlog, ?_, ?_⟩
  · rw [h0, hlog]
    simp only [List.append_assoc, List.drop_left]
    have e1 : pulseCount s.dev.currentStepPin
        [GpioCall.write s.dev.currentDirPin (if t > s.dev.FocusAbsPosN then 1 else 0),
          GpioCall.write s.dev.currentEnablePin 0] = 0 := by
      simp [pulseCount, List.count_cons, hds, Ne.symm hse]
    have e2 : pulseCount s.dev.currentStepPin [GpioCall.write s.dev.currentEnablePin 1] = 0 := by
      simp [pulseCount, List.count_cons, Ne.symm hse]
    have e3 := pulseCount_pulses s.dev.currentStepPin s.dev.stepDelay (distance s.dev.FocusAbsPosN t)
    simp only [pulseCount, List.count_append] at *
    omega
  · intro k
    rcases run_cases s t hp2 ht2 hne k with ⟨j, hj, hk⟩ | hk
    · rw [hk]
      refine ⟨?_, ?_⟩
      · by_cases hj0 : j = 0 <;> simp [moved, started, setPin, hj0, hds, hde]
      · intro _ hne2
        have hlt : toward s.dev.FocusAbsPosN t j < UINT32_SIZE := by
          unfold distance toward at *; split_ifs at * <;> omega
        have e1 : (moved j (toward s.dev.FocusAbsPosN t j) (started t s)).dev.FocusAbsPosN
            = toward s.dev.FocusAbsPosN t j := rfl
        have e2 : (moved j (toward s.dev.FocusAbsPosN t j) (started t s)).dev.targetPosition
            = t := rfl
        rw [e1, e2, toUInt32_of_lt hlt] at hne2 ⊢
        rw [decide_eq_decide]
        unfold distance toward at *; split_ifs at * <;> omega
    · rw [hk]
      refine ⟨?_, ?_⟩
      · by_cases hj0 : distance s.dev.FocusAbsPosN t = 0 <;>
          simp [arrived, moved, started, setPin, hj0, hds, hde]
      · intro hmv
        exact absurd hmv (by simp [arrived])

set_option maxRecDepth 100000 in
theorem C2_witness :
    fresh.dev.isMoving = false ∧ fresh.dev.FocusAbsPosN = 0 ∧ ValidChannel fresh.dev ∧
    (ticks 51 (MoveAbsFocuser 500 fresh).2).dev.FocusAbsPosN = 500 ∧
    (ticks 51 (MoveAbsFocuser 500 fresh).2).log
      = [GpioCall.write DIR_PIN_X 1, GpioCall.write ENABLE_PIN_X 0]
        ++ pulses STEP_PIN_X 1000 500 ++ [GpioCall.write ENABLE_PIN_X 1] ∧
    pulseCount STEP_PIN_X (ticks 51 (MoveAbsFocuser 500 fresh).2).log = 500 := by
  have h := C2_pulses_and_direction fresh 500 rfl (by decide) (by decide) (by decide)
    (Or.inl ⟨rfl, rfl, rfl⟩)
  exact ⟨rfl, rfl, Or.inl ⟨rfl, rfl, rfl⟩, h.2.1, h.2.2.1, h.2.2.2.1⟩

/-- Claim C3, as stated, fails: with the maximum at 100000 and the position at 0,
`MoveAbsFocuser 100001` stores 100001 in `targetPosition`, not the clamped 100000. -/
theorem C3_counterexample :
    connected.dev.FocusMaxPosN = 100000 ∧ 100001 ≠ connected.dev.FocusAbsPosN ∧
    (MoveAbsFocuser 100001 connected).2.dev.targetPosition = 100001 ∧
    (MoveAbsFocuser 100001 connected).2.dev.targetPosition
      ≠ clamp 100001 0 connected.dev.FocusMaxPosN := by
  decide

/-- Claim C3, amended. For every target different from the current position,
`MoveAbsFocuser` stores the target itself in `targetPosition`, without clamping: the
stored value is `clamp target 0 MaxPosition` exactly when the target does not exceed the
maximum position. -/
theorem C3_target_stored_unclamped (s : Sim) (target : Nat)
    (hne : target ≠ s.dev.FocusAbsPosN) :
    (MoveAbsFocuser target s).2.dev.targetPosition = target ∧
    ((MoveAbsFocuser target s).2.dev.targetPosition = clamp target 0 s.dev.FocusMaxPosN
      ↔ target ≤ s.dev.FocusMaxPosN) := by
  rw [MoveAbsFocuser_ne target s hne]
  refine ⟨rfl, ?_⟩
  show target = clamp target 0 s.dev.FocusMaxPosN ↔ _
  unfold clamp
  omega

theorem C3_witness :
    100001 ≠ connected.dev.FocusAbsPosN ∧
    (MoveAbsFocuser 100001 connected).2.dev.targetPosition = 100001 :=
  ⟨by decide, (C3_target_stored_unclamped connected 100001 (by decide)).1⟩

/-- Inward relative moves whose `delta` exceeds the position by at most `2 ^ 31` are
the absolute move to `max (p - delta) 0` (natural-number subtraction stops at 0). -/
theorem MoveRelFocuser_inward (s : Sim) (delta : Nat)
    (hp : s.dev.FocusAbsPosN < 2147483648) (hd : delta ≤ s.dev.FocusAbsPosN + 2147483648) :
    MoveRelFocuser FocusDirection.FOCUS_INWARD delta s
      = MoveAbsFocuser (s.dev.FocusAbsPosN - delta) s := by
  have e : (if toInt32 (toUInt32 ((s.dev.FocusAbsPosN : Int) - (delta : Int))) < 0 then 0
      else toUInt32 ((s.dev.FocusAbsPosN : Int) - (delta : Int))) = s.dev.FocusAbsPosN - delta := by
    unfold toInt32 toUInt32 UINT32_SIZE
    split_ifs <;> omega
  simp only [MoveRelFocuser, if_true]
  rw [e]

/-- Outward relative moves whose sum `p + delta` fits in 32 bits are the absolute move
to `min (p + delta) MaxPosition`. -/
theorem MoveRelFocuser_outward (s : Sim) (delta : Nat)
    (hmax : s.dev.FocusMaxPosN < UINT32_SIZE)
    (hd : s.dev.FocusAbsPosN + delta < UINT32_SIZE) :
    MoveRelFocuser FocusDirection.FOCUS_OUTWARD delta s
      = MoveAbsFocuser (min (s.dev.FocusAbsPosN + delta) s.dev.FocusMaxPosN) s := by
  have e : (if toUInt32 ((s.dev.FocusAbsPosN : Int) + (delta : Int)) > s.dev.FocusMaxPosN
      then toUInt32 (s.dev.FocusMaxPosN : Int)
      else toUInt32 ((s.dev.FocusAbsPosN : Int) + (delta : Int)))
      = min (s.dev.FocusAbsPosN + delta) s.dev.FocusMaxPosN := by
    unfold toUInt32 UINT32_SIZE at *
    split_ifs <;> omega
  simp only [MoveRelFocuser]
  rw [if_neg (by decide), e]

/-- Claim C4 at a failing input. At position 0 the inward request with
`delta = 2 ^ 31 + 1` is not the absolute move to 0: the difference wraps to
`2 ^ 31 - 1`, which the sign test does not catch, so the driver stores the target
2147483647, reports `IPS_BUSY` and raises the direction line (forward). -/
theorem C4_inward_large_delta :
    connected.dev.FocusAbsPosN = 0 ∧ connected.dev.isMoving = false ∧
    (MoveAbsFocuser 0 connected).1 = IPState.IPS_OK ∧
    (MoveRelFocuser FocusDirection.FOCUS_INWARD 2147483649 connected).1 = IPState.IPS_BUSY ∧
    (MoveRelFocuser FocusDirection.FOCUS_INWARD 2147483649 connected).2.dev.targetPosition
      = 2147483647 ∧
    (MoveRelFocuser FocusDirection.FOCUS_INWARD 2147483649 connected).2.dev.isMoving = true ∧
    (MoveRelFocuser FocusDirection.FOCUS_INWARD 2147483649 connected).2.dev.pins DIR_PIN_X = 1 ∧
    (ticks 1 (MoveRelFocuser FocusDirection.FOCUS_INWARD 2147483649 connected).2).dev.FocusAbsPosN
      = 10 := by
  decide

/-- Claim C5 at a failing input. At position 1 (idle) the outward request with
`delta = 2 ^ 32 - 1` is not the absolute move to `min (p + delta) MaxPosition = 100000`:
the sum wraps to 0, which passes the maximum test, so the driver stores the target 0 and
steps inward to position 0. -/
theorem C5_outward_wraps :
    (ticks 2 (MoveAbsFocuser 1 connected).2).dev.FocusAbsPosN = 1 ∧
    (ticks 2 (MoveAbsFocuser 1 connected).2).dev.isMoving = false ∧
    (ticks 2 (MoveAbsFocuser 1 connected).2).dev.FocusMaxPosN = 100000 ∧
    (MoveRelFocuser FocusDirection.FOCUS_OUTWARD 4294967295
      (ticks 2 (MoveAbsFocuser 1 connected).2)).2.dev.targetPosition = 0 ∧
    (MoveAbsFocuser (min (1 + 4294967295) 100000)
      (ticks 2 (MoveAbsFocuser 1 connected).2)).2.dev.targetPosition = 100000 ∧
    (MoveRelFocuser FocusDirection.FOCUS_OUTWARD 4294967295
      (ticks 2 (MoveAbsFocuser 1 connected).2)).2.dev.pins DIR_PIN_X = 0 ∧
    (ticks 2 (MoveRelFocuser FocusDirection.FOCUS_OUTWARD 4294967295
      (ticks 2 (MoveAbsFocuser 1 connected).2)).2).dev.FocusAbsPosN = 0 ∧
    (ticks 2 (MoveRelFocuser FocusDirection.FOCUS_OUTWARD 4294967295
      (ticks 2 (MoveAbsFocuser 1 connected).2)).2).dev.isMoving = false := by
  decide

/-- A request for the current position changes nothing at all: it returns `IPS_OK`
and leaves the driver state, the pin levels and the call log as they were. -/
theorem MoveAbsFocuser_current (m : Sim) :
    (MoveAbsFocuser m.dev.FocusAbsPosN m).1 = IPState.IPS_OK ∧
    (MoveAbsFocuser m.dev.FocusAbsPosN m).2 = m := by
  rw [MoveAbsFocuser_same]
  exact ⟨rfl, rfl⟩

/-- Claim C6, as stated, fails on a moving controller: one tick into a move from 0 to
500 the position is 10 and the controller is moving; `MoveAbsFocuser 10` then returns
`IPS_OK` and makes no pigpio call, and the controller is still moving afterwards, with
the enable line low, and the next tick steps on to 20. -/
theorem C6_counterexample :
    (ticks 1 (MoveAbsFocuser 500 connected).2).dev.FocusAbsPosN = 10 ∧
    (ticks 1 (MoveAbsFocuser 500 connected).2).dev.isMoving = true ∧
    (MoveAbsFocuser 10 (ticks 1 (MoveAbsFocuser 500 connected).2)).1 = IPState.IPS_OK ∧
    (MoveAbsFocuser 10 (ticks 1 (MoveAbsFocuser 500 connected).2)).2.log
      = (ticks 1 (MoveAbsFocuser 500 connected).2).log ∧
    (MoveAbsFocuser 10 (ticks 1 (MoveAbsFocuser 500 connected).2)).2.dev.isMoving = true ∧
    (MoveAbsFocuser 10 (ticks 1 (MoveAbsFocuser 500 connected).2)).2.dev.pins ENABLE_PIN_X = 0 ∧
    (ticks 1 (MoveAbsFocuser 10 (ticks 1 (MoveAbsFocuser 500 connected).2)).2).dev.FocusAbsPosN
      = 20 := by
  decide

/-- Claim C6, amended. On every idle controller state, `MoveAbsFocuser` called with the
current position returns `IPS_OK`, makes no pigpio call (no pin written, no pulse: the
call log and every pin level are as before, as is the rest of the state), and the
controller is idle after the call. -/
theorem C6_current_position_noop_idle (m : Sim) (hidle : m.dev.isMoving = false) :
    (MoveAbsFocuser m.dev.FocusAbsPosN m).1 = IPState.IPS_OK ∧
    (MoveAbsFocuser m.dev.FocusAbsPosN m).2.log = m.log ∧
    (MoveAbsFocuser m.dev.FocusAbsPosN m).2.dev.pins = m.dev.pins ∧
    (MoveAbsFocuser m.dev.FocusAbsPosN m).2 = m ∧
    (MoveAbsFocuser m.dev.FocusAbsPosN m).2.dev.isMoving = false := by
  obtain ⟨h1, h2⟩ := MoveAbsFocuser_current m
  refine ⟨h1, ?_, ?_, h2, ?_⟩
  · rw [h2]
  · rw [h2]
  · rw [h2]; exact hidle

theorem C6_witness :
    connected.dev.isMoving = false ∧ connected.dev.FocusAbsPosN = 0 ∧
    (MoveAbsFocuser 0 connected).1 = IPState.IPS_OK ∧
    (MoveAbsFocuser 0 connected).2.log = connected.log ∧
    (MoveAbsFocuser 0 connected).2.dev.isMoving = false := by
  have h := C6_current_position_noop_idle connected rfl
  exact ⟨rfl, rfl, h.1, h.2.1, h.2.2.2.2⟩

/-- Claim C8. After a move request to `t` at position `p`, `k` ticks with
`10 * k ≤ |t - p|` and then `AbortFocuser`: the position is `p + 10 * k` when `t > p`
and `p - 10 * k` when `t < p`, the controller is idle, the enable line is high, and any
number of later ticks leaves the whole state, call log included, unchanged. -/
theorem C8_abort_after_ticks (s : Sim) (t k : Nat)
    (hp : s.dev.FocusAbsPosN < UINT32_SIZE) (ht : t < UINT32_SIZE)
    (hk : 10 * k ≤ distance s.dev.FocusAbsPosN t) :
    (s.dev.FocusAbsPosN < t →
      (AbortFocuser (ticks k (MoveAbsFocuser t s).2)).2.dev.FocusAbsPosN
        = s.dev.FocusAbsPosN + 10 * k) ∧
    (t < s.dev.FocusAbsPosN →
      10 * k ≤ s.dev.FocusAbsPosN ∧
      (AbortFocuser (ticks k (MoveAbsFocuser t s).2)).2.dev.FocusAbsPosN
        = s.dev.FocusAbsPosN - 10 * k) ∧
    (AbortFocuser (ticks k (MoveAbsFocuser t s).2)).2.dev.isMoving = false ∧
    (AbortFocuser (ticks k (MoveAbsFocuser t s).2)).2.dev.pins
        (AbortFocuser (ticks k (MoveAbsFocuser t s).2)).2.dev.currentEnablePin = 1 ∧
    ∀ n, ticks n (AbortFocuser (ticks k (MoveAbsFocuser t s).2)).2
        = (AbortFocuser (ticks k (MoveAbsFocuser t s).2)).2 := by
  have hpos : ∀ (hne : t ≠ s.dev.FocusAbsPosN),
      (AbortFocuser (ticks k (MoveAbsFocuser t s).2)).2.dev.FocusAbsPosN
        = toward s.dev.FocusAbsPosN t (10 * k) := by
    intro hne
    rw [MoveAbsFocuser_ne t s hne]
    show (AbortFocuser (ticks k (started t s))).2.dev.FocusAbsPosN = _
    rw [ticks_moving (started t s) rfl hp ht k
      (by show 10 * k ≤ distance s.dev.FocusAbsPosN t + 9; omega)]
    show toward s.dev.FocusAbsPosN t (min (10 * k) (distance s.dev.FocusAbsPosN t)) = _
    rw [Nat.min_eq_left hk]
  refine ⟨?_, ?_, rfl, ?_, fun n => ticks_idle n _ rfl⟩
  · intro hlt
    rw [hpos (by omega)]
    unfold toward
    rw [if_pos (by omega)]
  · intro hlt
    rw [hpos (by omega)]
    unfold toward distance at *
    split_ifs at * <;> omega
  · simp [AbortFocuser, enableMotor, gpioWrite, setPin]

theorem C8_witness :
    (10 * 3 ≤ distance (ticks 21 (MoveAbsFocuser 200 connected).2).dev.FocusAbsPosN 500) ∧
    (ticks 21 (MoveAbsFocuser 200 connected).2).dev.FocusAbsPosN = 200 ∧
    (AbortFocuser (ticks 3 (MoveAbsFocuser 500
      (ticks 21 (MoveAbsFocuser 200 connected).2)).2)).2.dev.FocusAbsPosN = 200 + 10 * 3 ∧
    (AbortFocuser (ticks 3 (MoveAbsFocuser 500
      (ticks 21 (MoveAbsFocuser 200 connected).2)).2)).2.dev.isMoving = false := by
  have h200 : (ticks 21 (MoveAbsFocuser 200 connected).2).dev.FocusAbsPosN = 200 := by decide
  have hk : 10 * 3 ≤ distance (ticks 21 (MoveAbsFocuser 200 connected).2).dev.FocusAbsPosN 500 := by
    rw [h200]; decide
  have h := C8_abort_after_ticks (ticks 21 (MoveAbsFocuser 200 connected).2) 500 3
    (by rw [h200]; decide) (by decide) hk
  refine ⟨hk, h200, ?_, h.2.2.1⟩
  have h1 := h.1 (by rw [h200]; decide)
  rw [h200] at h1
  exact h1

/-- Claim C9. `AbortFocuser` is idempotent on the controller state (position, target,
moving flag, active channel, pin levels): applied twice it gives the state and the return
value it gives applied once; and on an idle state whose active enable line is high it
leaves the state unchanged. -/
theorem C9_abort_idempotent (m : Sim) :
    (AbortFocuser (AbortFocuser m).2).2.dev = (AbortFocuser m).2.dev ∧
    (AbortFocuser (AbortFocuser m).2).1 = (AbortFocuser m).1 ∧
    (m.dev.isMoving = false → m.dev.pins m.dev.currentEnablePin = 1 →
      (AbortFocuser m).2.dev = m.dev) := by
  refine ⟨?_, rfl, ?_⟩
  · simp [AbortFocuser, enableMotor, gpioWrite, setPin_setPin]
  · intro hidle hen
    have hpins : setPin m.dev.pins m.dev.currentEnablePin 1 = m.dev.pins := by
      funext q
      unfold setPin
      split
      · next h => rw [h, hen]
      · rfl
    apply Focuser.ext <;> simp [AbortFocuser, enableMotor, gpioWrite, hidle, hpins]

theorem C9_witness :
    connected.dev.isMoving = false ∧ connected.dev.pins connected.dev.currentEnablePin = 1 ∧
    (AbortFocuser connected).2.dev = connected.dev :=
  ⟨rfl, by decide, (C9_abort_idempotent connected).2.2 rfl (by decide)⟩

/-- A request made while a move is in progress, for a target other than the current
position, re-targets the move: the new target is stored, the direction line is written
with `(t2 > Position)`, and the ticks that follow end idle at the new target. -/
theorem retarget (m : Sim) (t2 : Nat) (hp : m.dev.FocusAbsPosN < UINT32_SIZE)
    (ht : t2 < UINT32_SIZE) (hne : t2 ≠ m.dev.FocusAbsPosN) :
    (MoveAbsFocuser t2 m).2.dev.targetPosition = t2 ∧
    (MoveAbsFocuser t2 m).2.log = m.log ++
      [GpioCall.write m.dev.currentDirPin (if t2 > m.dev.FocusAbsPosN then 1 else 0),
       GpioCall.write m.dev.currentEnablePin 0] ∧
    (ticks ((distance m.dev.FocusAbsPosN t2 + 9) / 10 + 1) (MoveAbsFocuser t2 m).2).dev.isMoving
      = false ∧
    (ticks ((distance m.dev.FocusAbsPosN t2 + 9) / 10 + 1) (MoveAbsFocuser t2 m).2).dev.FocusAbsPosN
      = t2 := by
  have h0 := run_done m t2 hp ht hne 0
  rw [Nat.add_zero] at h0
  rw [h0, MoveAbsFocuser_ne t2 m hne]
  exact ⟨rfl, rfl, rfl, rfl⟩

set_option maxRecDepth 100000 in
/-- Claim C10, as stated, fails when the new target is the position of the moment: one
tick into a move from 0 to 500 the position is 10 and the controller is moving; the
request `MoveAbsFocuser 10` is then the no-op for the current position: the target
stays 500 and the motion completes at position 500, not 10. -/
theorem C10_counterexample :
    (ticks 1 (MoveAbsFocuser 500 connected).2).dev.isMoving = true ∧
    (ticks 1 (MoveAbsFocuser 500 connected).2).dev.FocusAbsPosN = 10 ∧
    (MoveAbsFocuser 10 (ticks 1 (MoveAbsFocuser 500 connected).2)).2.dev.targetPosition = 500 ∧
    (ticks 50 (MoveAbsFocuser 10 (ticks 1 (MoveAbsFocuser 500 connected).2)).2).dev.isMoving
      = false ∧
    (ticks 50 (MoveAbsFocuser 10 (ticks 1 (MoveAbsFocuser 500 connected).2)).2).dev.FocusAbsPosN
      = 500 := by
  decide

/-- Claim C10, amended. Starting idle on a valid channel at a position within
`[0, MAX_STEPS]`, with `t1` and `t2` within `[0, MAX_STEPS]`: if `MoveAbsFocuser t2` is
called while the move to `t1` is in progress after `k` ticks, and `t2` differs from the
position at that moment, the move is re-targeted: `targetPosition` becomes `t2`, the
direction line is written with, and holds, the level `(t2 > Position)`, the enable line
is driven low again, and the ticks that follow end idle at position `t2`. -/
theorem C10_retarget_while_moving (s : Sim) (t1 t2 k : Nat)
    (hidle : s.dev.isMoving = false) (hp : s.dev.FocusAbsPosN ≤ MAX_STEPS)
    (ht1 : t1 ≤ MAX_STEPS) (ht2 : t2 ≤ MAX_STEPS) (hch : ValidChannel s.dev)
    (hmov : (ticks k (MoveAbsFocuser t1 s).2).dev.isMoving = true)
    (hne : t2 ≠ (ticks k (MoveAbsFocuser t1 s).2).dev.FocusAbsPosN) :
    (MoveAbsFocuser t2 (ticks k (MoveAbsFocuser t1 s).2)).2.dev.targetPosition = t2 ∧
    (MoveAbsFocuser t2 (ticks k (MoveAbsFocuser t1 s).2)).2.log =
      (ticks k (MoveAbsFocuser t1 s).2).log ++
        [GpioCall.write s.dev.currentDirPin
          (if t2 > (ticks k (MoveAbsFocuser t1 s).2).dev.FocusAbsPosN then 1 else 0),
         GpioCall.write s.dev.currentEnablePin 0] ∧
    (MoveAbsFocuser t2 (ticks k (MoveAbsFocuser t1 s).2)).2.dev.pins s.dev.currentDirPin =
      (if t2 > (ticks k (MoveAbsFocuser t1 s).2).dev.FocusAbsPosN then 1 else 0) ∧
    (ticks ((distance (ticks k (MoveAbsFocuser t1 s).2).dev.FocusAbsPosN t2 + 9) / 10 + 1)
      (MoveAbsFocuser t2 (ticks k (MoveAbsFocuser t1 s).2)).2).dev.isMoving = false ∧
    (ticks ((distance (ticks k (MoveAbsFocuser t1 s).2).dev.FocusAbsPosN t2 + 9) / 10 + 1)
      (MoveAbsFocuser t2 (ticks k (MoveAbsFocuser t1 s).2)).2).dev.FocusAbsPosN = t2 := by
  have hp2 := max_steps_lt hp
  have ht1u := max_steps_lt ht1
  have ht2u := max_steps_lt ht2
  obtain ⟨_, hde, _⟩ := validChannel_distinct s.dev hch
  by_cases h1 : t1 = s.dev.FocusAbsPosN
  · subst h1
    rw [MoveAbsFocuser_same] at hmov
    rw [show ((IPState.IPS_OK, s) : IPState × Sim).2 = s from rfl, ticks_idle k s hidle] at hmov
    rw [hidle] at hmov
    exact absurd hmov (by decide)
  · rcases run_cases s t1 hp2 ht1u h1 k with ⟨j, hj, hk⟩ | hk
    · rw [hk] at hne ⊢
      have hposlt : (moved j (toward s.dev.FocusAbsPosN t1 j) (started t1 s)).dev.FocusAbsPosN
          < UINT32_SIZE := by
        show toward s.dev.FocusAbsPosN t1 j < UINT32_SIZE
        unfold distance toward at *; split_ifs at * <;> omega
      obtain ⟨r1, r2, r3, r4⟩ :=
        retarget (moved j (toward s.dev.FocusAbsPosN t1 j) (started t1 s)) t2 hposlt ht2u hne
      refine ⟨r1, r2, ?_, r3, r4⟩
      rw [MoveAbsFocuser_ne t2 _ hne]
      show setPin (setPin _ s.dev.currentDirPin _) s.dev.currentEnablePin 0 s.dev.currentDirPin = _
      simp [setPin, hde]
    · rw [hk] at hmov
      exact absurd hmov (by simp [arrived])

theorem C10_witness :
    connected.dev.isMoving = false ∧
    (ticks 1 (MoveAbsFocuser 500 connected).2).dev.isMoving = true ∧
    (ticks 1 (MoveAbsFocuser 500 connected).2).dev.FocusAbsPosN = 10 ∧
    (MoveAbsFocuser 3 (ticks 1 (MoveAbsFocuser 500 connected).2)).2.dev.targetPosition = 3 ∧
    (MoveAbsFocuser 3 (ticks 1 (MoveAbsFocuser 500 connected).2)).2.dev.pins DIR_PIN_X = 0 ∧
    (ticks 2 (MoveAbsFocuser 3 (ticks 1 (MoveAbsFocuser 500 connected).2)).2).dev.isMoving
      = false ∧
    (ticks 2 (MoveAbsFocuser 3 (ticks 1 (MoveAbsFocuser 500 connected).2)).2).dev.FocusAbsPosN
      = 3 := by
  have h := C10_retarget_while_moving connected 500 3 1 rfl (by decide) (by decide) (by decide)
    (by decide) (by decide) (by decide)
  exact ⟨rfl, by decide, by decide, h.1, h.2.2.1, h.2.2.2.1, h.2.2.2.2⟩

theorem stepLoop_shape (forward : Bool) (n : Nat) : ∀ (cp : Nat) (m : Sim),
    ∃ j, (stepLoop forward n cp m).2 = moved j m.dev.FocusAbsPosN m := by
  induction n with
  | zero => intro cp m; exact ⟨0, by simp [stepLoop, moved_zero]⟩
  | succ n ih =>
    intro cp m
    by_cases hc : cp = m.dev.targetPosition
    · exact ⟨0, by simp [stepLoop, hc, moved_zero]⟩
    · simp only [stepLoop, hc, if_false]
      rw [stepMotor_eq m _ rfl]
      obtain ⟨j, hj⟩ := ih (if forward = true then (cp + 1) % UINT32_SIZE
        else (cp + UINT32_SIZE - 1) % UINT32_SIZE) (moved 1 m.dev.FocusAbsPosN m)
      refine ⟨1 + j, ?_⟩
      rw [hj]
      exact moved_moved 1 j m.dev.FocusAbsPosN m.dev.FocusAbsPosN m

/-- Every tick, in any state, either changes nothing, or is the arrival, or emits some
pulses and updates the position. -/
theorem TimerHit_shape (m : Sim) :
    TimerHit m = m ∨ TimerHit m = arrived m ∨ ∃ j pos, TimerHit m = moved j pos m := by
  by_cases hm : m.dev.isMoving = false
  · left; exact TimerHit_idle m hm
  · right
    have hm2 : m.dev.isMoving = true := by simpa using hm
    by_cases hc : toUInt32 (m.dev.FocusAbsPosN : Int) = m.dev.targetPosition
    · left
      simp only [TimerHit, hm2, hc, Bool.not_true, Bool.false_eq_true, if_false, if_true]
      rfl
    · right
      obtain ⟨j, hj⟩ := stepLoop_shape (decide (m.dev.targetPosition > toUInt32 (m.dev.FocusAbsPosN : Int)))
        10 (toUInt32 (m.dev.FocusAbsPosN : Int)) m
      refine ⟨j, (stepLoop (decide (m.dev.targetPosition > toUInt32 (m.dev.FocusAbsPosN : Int)))
        10 (toUInt32 (m.dev.FocusAbsPosN : Int)) m).1, ?_⟩
      simp only [TimerHit, hm2, hc, Bool.not_true, Bool.false_eq_true, if_false]
      rw [hj]
      simp [moved]

theorem enableStrong_moved (m : Sim) (j pos : Nat) (h : EnableStrong m.dev) :
    EnableStrong (moved j pos m).dev := by
  obtain ⟨hv, he, hx, hy, hz⟩ := h
  by_cases hj : j = 0
  · subst hj
    exact ⟨hv, he, hx, hy, hz⟩
  · refine ⟨hv, ?_, ?_, ?_, ?_⟩ <;>
    · rcases hv with ⟨h1, h2, h3⟩ | ⟨h1, h2, h3⟩ | ⟨h1, h2, h3⟩ <;>
        simp_all [moved, setPin, DIR_PIN_X, STEP_PIN_X, ENABLE_PIN_X, DIR_PIN_Y, STEP_PIN_Y,
          ENABLE_PIN_Y, DIR_PIN_Z, STEP_PIN_Z, ENABLE_PIN_Z]

theorem enableStrong_arrived (m : Sim) (h : EnableStrong m.dev) :
    EnableStrong (arrived m).dev := by
  obtain ⟨hv, he, hx, hy, hz⟩ := h
  refine ⟨hv, ?_, ?_, ?_, ?_⟩ <;>
  · rcases hv with ⟨h1, h2, h3⟩ | ⟨h1, h2, h3⟩ | ⟨h1, h2, h3⟩ <;>
      simp_all [arrived, setPin, DIR_PIN_X, STEP_PIN_X, ENABLE_PIN_X, DIR_PIN_Y, STEP_PIN_Y,
        ENABLE_PIN_Y, DIR_PIN_Z, STEP_PIN_Z, ENABLE_PIN_Z]

theorem enableStrong_started (m : Sim) (t : Nat) (h : EnableStrong m.dev) :
    EnableStrong (started t m).dev := by
  obtain ⟨hv, he, hx, hy, hz⟩ := h
  refine ⟨hv, ?_, ?_, ?_, ?_⟩ <;>
  · rcases hv with ⟨h1, h2, h3⟩ | ⟨h1, h2, h3⟩ | ⟨h1, h2, h3⟩ <;>
      simp_all [started, setPin, DIR_PIN_X, STEP_PIN_X, ENABLE_PIN_X, DIR_PIN_Y, STEP_PIN_Y,
        ENABLE_PIN_Y, DIR_PIN_Z, STEP_PIN_Z, ENABLE_PIN_Z]

theorem enableStrong_MoveAbsFocuser (m : Sim) (t : Nat) (h : EnableStrong m.dev) :
    EnableStrong (MoveAbsFocuser t m).2.dev := by
  by_cases ht : t = m.dev.FocusAbsPosN
  · subst ht; rw [MoveAbsFocuser_same]; exact h
  · rw [MoveAbsFocuser_ne t m ht]; exact enableStrong_started m t h

theorem enableStrong_TimerHit (m : Sim) (h : EnableStrong m.dev) :
    EnableStrong (TimerHit m).dev := by
  rcases TimerHit_shape m with h1 | h1 | ⟨j, pos, h1⟩
  · rw [h1]; exact h
  · rw [h1]; exact enableStrong_arrived m h
  · rw [h1]; exact enableStrong_moved m j pos h

theorem enableStrong_AbortFocuser (m : Sim) (h : EnableStrong m.dev) :
    EnableStrong (AbortFocuser m).2.dev := by
  obtain ⟨hv, he, hx, hy, hz⟩ := h
  refine ⟨hv, ?_, ?_, ?_, ?_⟩ <;>
  · rcases hv with ⟨h1, h2, h3⟩ | ⟨h1, h2, h3⟩ | ⟨h1, h2, h3⟩ <;>
      simp_all [AbortFocuser, enableMotor, gpioWrite, setPin, DIR_PIN_X, STEP_PIN_X, ENABLE_PIN_X,
        DIR_PIN_Y, STEP_PIN_Y, ENABLE_PIN_Y, DIR_PIN_Z, STEP_PIN_Z, ENABLE_PIN_Z]

theorem enableStrong_selectMotor (m : Sim) (i : Int) (h : EnableStrong m.dev)
    (hidle : m.dev.isMoving = false) : EnableStrong (selectMotor i m).dev := by
  obtain ⟨hv, he, hx, hy, hz⟩ := h
  unfold selectMotor
  split_ifs
  all_goals
    refine ⟨?_, ?_, ?_, ?_, ?_⟩ <;>
    · rcases hv with ⟨h1, h2, h3⟩ | ⟨h1, h2, h3⟩ | ⟨h1, h2, h3⟩ <;>
        simp_all [ValidChannel, DIR_PIN_X, STEP_PIN_X, ENABLE_PIN_X,
          DIR_PIN_Y, STEP_PIN_Y, ENABLE_PIN_Y, DIR_PIN_Z, STEP_PIN_Z, ENABLE_PIN_Z]

theorem enableStrong_Connect (rc : Int) (m : Sim) (hok : (Connect rc m).1 = true)
    (hidle : m.dev.isMoving = false) (hv : ValidChannel m.dev) :
    EnableStrong (Connect rc m).2.dev := by
  have hrc : ¬ rc < 0 := by
    intro hneg
    simp [Connect, initializeGPIO, hneg] at hok
  refine ⟨?_, ?_, ?_, ?_, ?_⟩ <;>
  · rcases hv with ⟨h1, h2, h3⟩ | ⟨h1, h2, h3⟩ | ⟨h1, h2, h3⟩ <;>
      simp [Connect, initializeGPIO, hrc, setupPins, enableMotor, gpioWrite, gpioSetMode, setPin,
        ValidChannel, h1, h2, h3, hidle, DIR_PIN_X, STEP_PIN_X, ENABLE_PIN_X,
        DIR_PIN_Y, STEP_PIN_Y, ENABLE_PIN_Y, DIR_PIN_Z, STEP_PIN_Z, ENABLE_PIN_Z]

theorem enableStrong_run (ops : List Request) : ∀ (m : Sim), EnableStrong m.dev →
    selectsWhileIdle ops m = true → EnableStrong (run ops m).dev := by
  induction ops with
  | nil => intro m h _; exact h
  | cons r rs ih =>
    intro m h hs
    cases r with
    | moveAbs t =>
      exact ih _ (enableStrong_MoveAbsFocuser m t h) hs
    | moveRel dir n =>
      exact ih _ (enableStrong_MoveAbsFocuser m _ h) hs
    | abort =>
      exact ih _ (enableStrong_AbortFocuser m h) hs
    | timer =>
      exact ih _ (enableStrong_TimerHit m h) hs
    | select i =>
      simp only [selectsWhileIdle, Bool.and_eq_true, Bool.not_eq_true'] at hs
      exact ih _ (enableStrong_selectMotor m i h hs.1) hs.2

theorem enableInvariant_of_strong (d : Focuser) (h : EnableStrong d) : EnableInvariant d := by
  obtain ⟨_, he, hx, hy, hz⟩ := h
  refine ⟨?_, ?_⟩
  · rw [he]
    cases d.isMoving <;> simp
  · intro e hmem hne
    simp only [List.mem_cons, List.mem_singleton, List.not_mem_nil, or_false] at hmem
    rcases hmem with rfl | rfl | rfl
    · exact hx hne
    · exact hy hne
    · exact hz hne

/-- Claim C7, as stated, fails: after a successful `Connect`, a move request to 500 and
the selection of motor Y, the controller is moving while the enable line of the active
channel Y is high and the enable line of the non-active channel X is low. -/
theorem C7_counterexample :
    (Connect 0 fresh).1 = true ∧
    (run [Request.moveAbs 500, Request.select 1] (Connect 0 fresh).2).dev.isMoving = true ∧
    (run [Request.moveAbs 500, Request.select 1] (Connect 0 fresh).2).dev.currentEnablePin
      = ENABLE_PIN_Y ∧
    (run [Request.moveAbs 500, Request.select 1] (Connect 0 fresh).2).dev.pins ENABLE_PIN_Y = 1 ∧
    (run [Request.moveAbs 500, Request.select 1] (Connect 0 fresh).2).dev.pins ENABLE_PIN_X = 0 ∧
    ¬ EnableInvariant (run [Request.moveAbs 500, Request.select 1] (Connect 0 fresh).2).dev := by
  decide

/-- Claim C7, amended. In every state reached from a successful `Connect` of an idle
controller on a valid channel by any sequence of `MoveAbsFocuser`, `MoveRelFocuser`,
`AbortFocuser`, `TimerHit` and channel selections, where every channel selection is made
while the controller is idle, the active channel's enable line is low if and only if
`isMoving` is true, and the enable line of every non-active channel is high. -/
theorem C7_enable_iff_moving (rc : Int) (s : Sim) (ops : List Request)
    (hok : (Connect rc s).1 = true) (hidle : s.dev.isMoving = false)
    (hch : ValidChannel s.dev) (hsel : selectsWhileIdle ops (Connect rc s).2 = true) :
    EnableInvariant (run ops (Connect rc s).2).dev :=
  enableInvariant_of_strong _
    (enableStrong_run ops _ (enableStrong_Connect rc s hok hidle hch) hsel)

theorem C7_witness :
    (Connect 0 fresh).1 = true ∧ fresh.dev.isMoving = false ∧ ValidChannel fresh.dev ∧
    selectsWhileIdle
      [Request.select 2, Request.moveRel FocusDirection.FOCUS_OUTWARD 25, Request.timer,
        Request.abort, Request.select 1, Request.moveAbs 7, Request.timer]
      (Connect 0 fresh).2 = true ∧
    EnableInvariant (run
      [Request.select 2, Request.moveRel FocusDirection.FOCUS_OUTWARD 25, Request.timer,
        Request.abort, Request.select 1, Request.moveAbs 7, Request.timer]
      (Connect 0 fresh).2).dev :=
  ⟨by decide, rfl, Or.inl ⟨rfl, rfl, rfl⟩, by decide,
    C7_enable_iff_moving 0 fresh _ (by decide) rfl (Or.inl ⟨rfl, rfl, rfl⟩) (by decide)⟩

end WMHNEMAFocuser
